import Mathlib

/-!
Verification development for a versioned model-inference server: a shallow
embedding of its circuit breaker, model registry, batch scheduler and linear
scorer, with theorems settling the specified properties against the code.

Wall-clock timestamps (Python `time.time()` floats) are embedded as rationals;
machine floats carry no overflow here, all arithmetic on them is ordinary
field arithmetic.
-/

/-! ## Python exceptions used by the embedded components -/

/-- The exception kinds raised by the embedded code paths
(`asyncio.QueueFull`, `CircuitBreakerOpen`, `FileNotFoundError`,
`ValueError`, plus a catch-all for any other raised exception).
Exception message strings are elided. -/
inductive PyError where
  | QueueFull
  | CircuitBreakerOpen
  | FileNotFoundError
  | ValueError
  | OtherException
deriving DecidableEq, Repr

deriving instance DecidableEq for Except

/-! ## Circuit breaker (`app/services/circuit_breaker.py`)

State, counter and last-failure time are the fields of `CircuitBreaker`;
`enter` embeds `__enter__`, and `handle_failure` / `handle_success` embed
`_handle_failure` / `_handle_success` (the two branches of `__exit__` for an
expected-exception outcome and a success outcome). All transitions happen
under the breaker mutex in the source, so they are embedded as sequential
state transformers. -/

inductive CircuitState where
  | CLOSED
  | OPEN
  | HALF_OPEN
deriving DecidableEq, Repr

structure CircuitBreaker where
  failure_threshold : Nat
  recovery_timeout : ℚ
  state : CircuitState
  failure_count : Nat
  last_failure_time : ℚ
deriving DecidableEq, Repr

/-- Embeds `CircuitBreaker.__init__`: initial state is CLOSED with zero failures. -/
def CircuitBreaker.init (failure_threshold : Nat) (recovery_timeout : ℚ) : CircuitBreaker :=
  { failure_threshold := failure_threshold
    recovery_timeout := recovery_timeout
    state := CircuitState.CLOSED
    failure_count := 0
    last_failure_time := 0 }

/-- Embeds `CircuitBreaker.__enter__` at wall time `now`: when OPEN, proceed to
HALF_OPEN only if `now - last_failure_time > recovery_timeout` (strict,
as in the source), else raise `CircuitBreakerOpen`; in CLOSED and
HALF_OPEN the call proceeds with the state untouched. -/
def CircuitBreaker.enter (b : CircuitBreaker) (now : ℚ) :
    Except PyError CircuitBreaker :=
  match b.state with
  | CircuitState.OPEN =>
      if b.recovery_timeout < now - b.last_failure_time then
        Except.ok { b with state := CircuitState.HALF_OPEN }
      else
        Except.error PyError.CircuitBreakerOpen
  | _ => Except.ok b

/-- Embeds `CircuitBreaker._handle_failure` at wall time `now`: bump the counter,
record the time; a HALF_OPEN trial failure re-opens, a CLOSED breaker opens
once the counter reaches the threshold. -/
def CircuitBreaker.handle_failure (b : CircuitBreaker) (now : ℚ) : CircuitBreaker :=
  let b1 := { b with failure_count := b.failure_count + 1, last_failure_time := now }
  match b1.state with
  | CircuitState.HALF_OPEN => { b1 with state := CircuitState.OPEN }
  | CircuitState.CLOSED =>
      if b1.failure_threshold ≤ b1.failure_count then
        { b1 with state := CircuitState.OPEN }
      else b1
  | CircuitState.OPEN => b1

/-- Embeds `CircuitBreaker._handle_success`: a HALF_OPEN trial success closes the
breaker and zeroes the counter; in CLOSED a positive counter is zeroed. -/
def CircuitBreaker.handle_success (b : CircuitBreaker) : CircuitBreaker :=
  match b.state with
  | CircuitState.HALF_OPEN =>
      { b with state := CircuitState.CLOSED, failure_count := 0 }
  | CircuitState.CLOSED =>
      if 0 < b.failure_count then { b with failure_count := 0 } else b
  | CircuitState.OPEN => b

/-- One guarded call: enter at `tIn`; if admitted, record the outcome at
`tOut` (`failed = true` for an expected-error outcome). `__exit__` never
suppresses the underlying exception, so only the state effect is modelled. -/
def CircuitBreaker.runCalls (b : CircuitBreaker) :
    List (ℚ × ℚ × Bool) → Except PyError CircuitBreaker
  | [] => Except.ok b
  | c :: rest =>
      match b.enter c.1 with
      | Except.error e => Except.error e
      | Except.ok b1 =>
          CircuitBreaker.runCalls
            (if c.2.2 then b1.handle_failure c.2.1 else b1.handle_success) rest

/-! ## Python dict operations

`ModelRegistry._loaded_models` is a `Dict[str, Model]`; it is embedded as an
association list with the three dict operations the registry uses: key lookup
(also deciding `version in self._loaded_models`), insertion of a fresh key,
and `del`. -/

/-- Dict lookup: the value stored at the first (only) occurrence of a key. -/
def dictFind {β : Type} : List (String × β) → String → Option β
  | [], _ => none
  | p :: rest, k => if p.1 = k then some p.2 else dictFind rest k

/-- Python `del d[k]`: drop the entries holding key `k`. -/
def dictErase {β : Type} : List (String × β) → String → List (String × β)
  | [], _ => []
  | p :: rest, k => if p.1 = k then dictErase rest k else p :: dictErase rest k

/-! ## Model registry (`app/models/registry.py`)

All registry operations run under a reentrant mutex in the source, so they
are embedded as sequential state transformers. Each returns the Python
result (or the exception raised) together with the registry state at the
moment the operation returned or raised. The filesystem is embedded as the
set `disk` of versions whose artifact file
`<registry_path>/<version>/model.json` exists; these operations never write
to the filesystem, so it is carried as an immutable field. -/

/-- A cached model instance: `ExampleModel(version=version, model_path=...)`.
The loaded weights and scoring behaviour of the instance live in the
`ExampleModel` embedding below; the registry claims concern only the identity
of the cached instance, carried here by its version tag. -/
structure LoadedModel where
  version : String
deriving DecidableEq, Repr

structure ModelRegistry where
  disk : List String
  loaded_models : List (String × LoadedModel)
  default_version : String
deriving DecidableEq, Repr

/-- Embeds `ModelRegistry.__init__(registry_path, default_version="v1")`: the cache
starts empty and the default version is taken as given, without loading it. -/
def ModelRegistry.init (disk : List String) (default_version : String := "v1") :
    ModelRegistry :=
  { disk := disk, loaded_models := [], default_version := default_version }

/-- Embeds `ModelRegistry.load`: return the cached instance if present; otherwise
construct and cache one when the artifact exists on disk, and raise
`FileNotFoundError` (before any mutation) when it does not. -/
def ModelRegistry.load (r : ModelRegistry) (version : String) :
    Except PyError LoadedModel × ModelRegistry :=
  match dictFind r.loaded_models version with
  | some m => (Except.ok m, r)
  | none =>
      if version ∈ r.disk then
        let m : LoadedModel := { version := version }
        (Except.ok m, { r with loaded_models := r.loaded_models ++ [(version, m)] })
      else
        (Except.error PyError.FileNotFoundError, r)

/-- Embeds `ModelRegistry.set_default_version`: auto-load the version when it is not
cached (propagating a load failure before any mutation), then make it the
default. -/
def ModelRegistry.set_default_version (r : ModelRegistry) (version : String) :
    Except PyError Unit × ModelRegistry :=
  match dictFind r.loaded_models version with
  | some _ => (Except.ok (), { r with default_version := version })
  | none =>
      match r.load version with
      | (Except.ok _, r1) => (Except.ok (), { r1 with default_version := version })
      | (Except.error e, r1) => (Except.error e, r1)

/-- Embeds `ModelRegistry.unload`: raise `ValueError` for the current default;
otherwise delete the version from the cache when present, and do nothing
when absent. -/
def ModelRegistry.unload (r : ModelRegistry) (version : String) :
    Except PyError Unit × ModelRegistry :=
  if version = r.default_version then
    (Except.error PyError.ValueError, r)
  else if (dictFind r.loaded_models version).isSome then
    (Except.ok (), { r with loaded_models := dictErase r.loaded_models version })
  else
    (Except.ok (), r)

/-- The registry invariant the specification asserts: the default version is
present in the loaded-model cache. -/
def defaultLoaded (r : ModelRegistry) : Prop :=
  (dictFind r.loaded_models r.default_version).isSome

instance (r : ModelRegistry) : Decidable (defaultLoaded r) := by
  unfold defaultLoaded; infer_instance

/-! ## Batch scheduler (`app/services/batch_scheduler.py`)

The scheduler is generic in the payload the prediction callback returns
(`Dict[str, Any]` in the source), embedded as a type parameter `α`. An
`asyncio.Future` is a one-shot handle; its lifecycle states are embedded as
`FutureState`, with `done` true in every state but pending (the meaning of
`future.done()`). Feature rows only travel through the scheduler, so they
are embedded opaquely as a type parameter as well. -/

inductive FutureState (α : Type) where
  | pending
  | resolved (value : α)
  | rejected (e : PyError)
  | cancelled
deriving DecidableEq, Repr

/-- Embeds `asyncio.Future.done()`. -/
def FutureState.done {α : Type} : FutureState α → Bool
  | FutureState.pending => false
  | _ => true

/-- Embeds `_QueueItem(features, future, received_at)`. -/
structure QueueItem (φ α : Type) where
  features : φ
  future : FutureState α
  received_at : ℚ
deriving DecidableEq, Repr

/-- The success half of `_process_batch`: `for item, prediction in
zip(items, predictions): if not item.future.done(): set_result(prediction)`.
`zip` stops at the shorter list, leaving later items untouched. -/
def setResults {φ α : Type} : List (QueueItem φ α) → List α → List (QueueItem φ α)
  | [], _ => []
  | its, [] => its
  | it :: its, p :: ps =>
      (if it.future.done then it
       else { it with future := FutureState.resolved p }) :: setResults its ps

/-- The failure half of `_process_batch`: `for item in items: if not
item.future.done(): set_exception(e)`. -/
def failAll {φ α : Type} (items : List (QueueItem φ α)) (e : PyError) :
    List (QueueItem φ α) :=
  items.map fun it =>
    if it.future.done then it else { it with future := FutureState.rejected e }

/-- Embeds `BatchScheduler._process_batch`, applied to the outcome of
`prediction_fn` on the batch: the returned prediction list on success, or
the exception it raised. -/
def processBatch {φ α : Type} (items : List (QueueItem φ α))
    (result : Except PyError (List α)) : List (QueueItem φ α) :=
  match result with
  | Except.ok predictions => setResults items predictions
  | Except.error e => failAll items e

/-- The scheduler state visible to `stop()`: the queue of submitted items
(with the future of each), the `_shutdown` flag, and whether the worker task
is alive. -/
structure BatchScheduler (φ α : Type) where
  queue : List (QueueItem φ α)
  shutdown : Bool
  worker_running : Bool
deriving DecidableEq, Repr

/-- Embeds `BatchScheduler.stop`: set `_shutdown`, cancel the worker task and await
it (swallowing its `CancelledError`). A worker cancelled while blocked on
`queue.get` or the timed wait stops popping the queue, so the items still
queued—and their futures—are exactly those of the pre-stop state: nothing
resolves, rejects or cancels them. -/
def BatchScheduler.stop {φ α : Type} (s : BatchScheduler φ α) : BatchScheduler φ α :=
  { s with shutdown := true, worker_running := false }

/-! ## The predict route and its error mapping
(`app/api/routes.py::predict`, `app/api/admin_routes.py::load_model`,
`app/services/inference_service.py::InferenceService.predict`)

For a request that names an explicit version different from the default,
`InferenceService.predict` takes the non-coalescing path: it calls
`registry.load(version)` and then scores off-thread; its sole
`except Exception` clause increments the error counter, logs, and re-raises
unchanged. The route handler catches exactly `asyncio.QueueFull` and
`CircuitBreakerOpen`, turning each into an HTTP 503; any other exception
leaves the handler unhandled and the ASGI framework answers with its
internal-server-error status 500. HTTP outcomes are embedded as
`Except status-code payload`. -/

/-- The error path of `InferenceService.predict(features, model_version)` for
an explicit non-default `model_version`: `registry.load`, whose failure is
re-raised unchanged by the `except Exception` clause. Scoring of a
successfully loaded model is embedded separately (`ExampleModel` below); the
route-level claims concern which exception escapes. -/
def InferenceService.predictVersioned (r : ModelRegistry) (version : String) :
    Except PyError LoadedModel :=
  (r.load version).1

/-- Embeds `routes.py::predict` for a request naming `version`: `QueueFull` and
`CircuitBreakerOpen` are caught and mapped to 503; every other exception
propagates out of the handler and surfaces as the framework status 500. -/
def predictRoute (r : ModelRegistry) (version : String) :
    Except Nat LoadedModel :=
  match InferenceService.predictVersioned r version with
  | Except.ok m => Except.ok m
  | Except.error PyError.QueueFull => Except.error 503
  | Except.error PyError.CircuitBreakerOpen => Except.error 503
  | Except.error _ => Except.error 500

/-- Embeds `admin_routes.py::load_model`: `FileNotFoundError` is caught and mapped
to 404; any other exception propagates (framework status 500). -/
def loadModelRoute (r : ModelRegistry) (version : String) :
    Except Nat ModelRegistry :=
  match r.load version with
  | (Except.ok _, r1) => Except.ok r1
  | (Except.error PyError.FileNotFoundError, _) => Except.error 404
  | (Except.error _, _) => Except.error 500

/-! ## Linear scorer (`app/models/example_model.py`)

`ExampleModel.predict` scores each row independently: starting from the
bias, it adds `row.get(name, 0.0) * weight` for every entry of the weight
dict, passes the sum through the logistic function, and emits
`{probability, label, version, confidence}`. Float arithmetic is embedded as
real arithmetic; the device-lock sleep has no effect on the values and is
elided. These definitions are necessarily non-executable: the scorer is
transcendental (`math.exp`), so the claims about it are stated without
hypotheses and proved outright rather than evaluated. -/

/-- A feature row: the parsed numeric fields of one instance. -/
def Row : Type := List (String × ℝ)

/-- Embeds `row.get(name, 0.0)`: the value stored under `name`, defaulting to 0. -/
def Row.get : Row → String → ℝ
  | [], _ => 0
  | p :: rest, name => if p.1 = name then p.2 else Row.get rest name

structure Prediction where
  probability : ℝ
  label : Nat
  version : String
  confidence : ℝ

structure ExampleModel where
  version : String
  bias : ℝ
  weights : List (String × ℝ)

/-- The score accumulation loop: `score = bias; for name, weight in
weights.items(): score += row.get(name, 0.0) * weight`. -/
def ExampleModel.score (m : ExampleModel) (row : Row) : ℝ :=
  m.weights.foldl (fun s wp => s + Row.get row wp.1 * wp.2) m.bias

/-- Embeds `1 / (1 + math.exp(-score))`. -/
noncomputable def logistic (x : ℝ) : ℝ := 1 / (1 + Real.exp (-x))

/-- The per-row body of `ExampleModel.predict`. -/
noncomputable def ExampleModel.predictRow (m : ExampleModel) (row : Row) : Prediction :=
  let probability := logistic (m.score row)
  { probability := probability
    label := if (1 : ℝ) / 2 ≤ probability then 1 else 0
    version := m.version
    confidence := |probability - 1 / 2| * 2 }

/-- Embeds `ExampleModel.predict` over a batch: one prediction per row, in order. -/
noncomputable def ExampleModel.predict (m : ExampleModel) (rows : List Row) :
    List Prediction :=
  rows.map m.predictRow

/-!
# Theorems

First the association-list lemmas the registry proofs rest on, then the
claims in order.
-/

theorem dictFind_append_isSome {β : Type} (l l2 : List (String × β)) (k : String)
    (h : (dictFind l k).isSome) : (dictFind (l ++ l2) k).isSome := by
  induction l with
  | nil => simp [dictFind] at h
  | cons p rest ih =>
      by_cases hk : p.1 = k
      · simp [dictFind, hk]
      · simp only [dictFind, hk, if_false, List.cons_append] at h ⊢
        exact ih h

theorem dictFind_append_self {β : Type} (l : List (String × β)) (k : String) (m : β)
    (h : dictFind l k = none) : dictFind (l ++ [(k, m)]) k = some m := by
  induction l with
  | nil => simp [dictFind]
  | cons p rest ih =>
      by_cases hk : p.1 = k
      · simp [dictFind, hk] at h
      · simp only [dictFind, hk, if_false, List.cons_append] at h ⊢
        exact ih h

theorem dictFind_erase_ne {β : Type} (l : List (String × β)) (k d : String)
    (h : d ≠ k) : dictFind (dictErase l k) d = dictFind l d := by
  induction l with
  | nil => simp [dictErase]
  | cons p rest ih =>
      by_cases hk : p.1 = k
      · have hkd : ¬ (k = d) := fun he => h he.symm
        simp [dictErase, dictFind, hk, hkd, ih]
      · by_cases hd : p.1 = d
        · have hdk : ¬ (d = k) := h
          simp [dictErase, dictFind, hk, hd, hdk]
        · simp [dictErase, dictFind, hk, hd, ih]

/-! ### C9 — promote of an uncached version with no artifact raises and
leaves the registry unchanged -/

/-- Claim C9: calling `set_default_version(v)` for a version `v` that is not
cached and whose artifact is missing on disk raises (`FileNotFoundError`,
from the auto-load) and leaves the registry state unchanged: same default
version, same loaded versions. -/
theorem C9_promote_missing_artifact_unchanged (r : ModelRegistry) (version : String)
    (hcache : dictFind r.loaded_models version = none) (hdisk : version ∉ r.disk) :
    r.set_default_version version = (Except.error PyError.FileNotFoundError, r) := by
  simp [ModelRegistry.set_default_version, ModelRegistry.load, hcache, hdisk]

theorem C9_promote_missing_artifact_unchanged_witness :
    (ModelRegistry.init ["v1"] "v1").set_default_version "v2" =
      (Except.error PyError.FileNotFoundError, ModelRegistry.init ["v1"] "v1") :=
  C9_promote_missing_artifact_unchanged (ModelRegistry.init ["v1"] "v1") "v2"
    (by decide) (by decide)

/-! ### C10 — unload of a non-default, non-cached version is a no-op -/

/-- Claim C10: `unload(v)` for a version `v` that is not the current default
and is not in the loaded-model cache returns without raising and leaves the
registry state (loaded versions and default version) unchanged. -/
theorem C10_unload_absent_noop (r : ModelRegistry) (version : String)
    (hdef : version ≠ r.default_version)
    (hcache : dictFind r.loaded_models version = none) :
    r.unload version = (Except.ok (), r) := by
  simp [ModelRegistry.unload, hdef, hcache]

theorem C10_unload_absent_noop_witness :
    (ModelRegistry.init ["v1"] "v1").unload "v2" =
      (Except.ok (), ModelRegistry.init ["v1"] "v1") :=
  C10_unload_absent_noop (ModelRegistry.init ["v1"] "v1") "v2" (by decide) (by decide)

/-! ### C2 — the default version and the loaded-model cache

The claim fails in the state immediately after construction: `__init__`
stores the given default version but loads nothing, so the cache is empty
and the default is not present in it. In every state whose default is
loaded the operations preserve that invariant, a successful promote
establishes it, and `unload(default)` is always refused. -/

/-- Claim C2 counterexample: immediately after construction the registry
default version (here the `__init__` default `"v1"`) is not present in the
loaded-model cache, which is empty. -/
theorem C2_default_loaded_counterexample :
    ¬ defaultLoaded (ModelRegistry.init ["v1"] "v1") := by decide

/-- Claim C2 (amended): `unload(v)` fails with `ValueError` whenever `v`
equals the current default, in every state; every registry operation
preserves the property that the default version is cached; and a successful
`set_default_version` establishes it. Immediately after construction,
however, the cache is empty and the default version is not in it (see the
counterexample). -/
theorem C2_default_loaded_amended :
    (∀ (r : ModelRegistry) (v : String), v = r.default_version →
        r.unload v = (Except.error PyError.ValueError, r)) ∧
    (∀ (r : ModelRegistry) (v : String),
        defaultLoaded r → defaultLoaded (r.load v).2) ∧
    (∀ (r : ModelRegistry) (v : String),
        defaultLoaded r → defaultLoaded (r.unload v).2) ∧
    (∀ (r : ModelRegistry) (v : String),
        ((r.set_default_version v).1 = Except.ok () →
          defaultLoaded (r.set_default_version v).2) ∧
        (defaultLoaded r → defaultLoaded (r.set_default_version v).2)) := by
  refine ⟨?_, ?_, ?_, ?_⟩
  · intro r v hv
    simp [ModelRegistry.unload, hv]
  · intro r v h
    unfold ModelRegistry.load
    cases hfind : dictFind r.loaded_models v with
    | some m => exact h
    | none =>
        by_cases hdisk : v ∈ r.disk
        · simpa [hfind, hdisk, defaultLoaded] using
            dictFind_append_isSome r.loaded_models [(v, LoadedModel.mk v)]
              r.default_version h
        · simpa [hfind, hdisk] using h
  · intro r v h
    unfold ModelRegistry.unload
    by_cases hv : v = r.default_version
    · simpa [hv] using h
    · by_cases hfind : (dictFind r.loaded_models v).isSome
      · have hne : r.default_version ≠ v := fun he => hv he.symm
        simpa [hv, hfind, defaultLoaded,
               dictFind_erase_ne r.loaded_models v r.default_version hne] using h
      · simpa [hv, hfind] using h
  · intro r v
    unfold ModelRegistry.set_default_version
    cases hfind : dictFind r.loaded_models v with
    | some m =>
        constructor
        · intro _
          simp [defaultLoaded, hfind]
        · intro _
          simp [defaultLoaded, hfind]
    | none =>
        unfold ModelRegistry.load
        rw [hfind]
        by_cases hdisk : v ∈ r.disk
        · constructor
          · intro _
            simp [hdisk, defaultLoaded,
                  dictFind_append_self r.loaded_models v (LoadedModel.mk v) hfind]
          · intro _
            simp [hdisk, defaultLoaded,
                  dictFind_append_self r.loaded_models v (LoadedModel.mk v) hfind]
        · constructor
          · intro hok
            simp [hdisk] at hok
          · intro h
            simpa [hdisk] using h

theorem C2_default_loaded_amended_witness :
    (ModelRegistry.mk ["v1"] [("v1", LoadedModel.mk "v1")] "v1").unload "v1" =
      (Except.error PyError.ValueError,
        ModelRegistry.mk ["v1"] [("v1", LoadedModel.mk "v1")] "v1") ∧
    defaultLoaded
      ((ModelRegistry.mk ["v1", "v2"] [("v1", LoadedModel.mk "v1")] "v1").load "v2").2 ∧
    defaultLoaded
      ((ModelRegistry.mk ["v1", "v2"] [("v1", LoadedModel.mk "v1")] "v1").set_default_version
        "v2").2 :=
  ⟨C2_default_loaded_amended.1 _ "v1" rfl,
   C2_default_loaded_amended.2.1 _ "v2" (by decide),
   (C2_default_loaded_amended.2.2.2 _ "v2").1 (by decide)⟩

/-! ### C5 — HTTP status for a predict request naming a version with no
artifact

The claim fails: the `/predict` handler catches only `asyncio.QueueFull` and
`CircuitBreakerOpen` (both mapped to 503). The `FileNotFoundError` that
`registry.load` raises for a missing artifact propagates out of the handler
unhandled and surfaces as the framework internal-server-error 500, not as a
404. Only the admin `load`/`promote` routes map it to 404. -/

/-- Claim C5 counterexample: with only `v1` on disk, a predict request
naming `v2` does not surface as 404; it surfaces as the
internal-server-error status 500. -/
theorem C5_missing_artifact_counterexample :
    predictRoute (ModelRegistry.init ["v1"] "v1") "v2" ≠ Except.error 404 ∧
    predictRoute (ModelRegistry.init ["v1"] "v1") "v2" = Except.error 500 := by
  decide

/-- Claim C5 (amended): when a predict request names a version that is not
cached and has no artifact on disk, the `FileNotFoundError` escapes the
`/predict` handler and surfaces as internal error 500; the 404 mapping for a
missing artifact exists only on the admin model-load route. -/
theorem C5_missing_artifact_amended (r : ModelRegistry) (version : String)
    (hcache : dictFind r.loaded_models version = none) (hdisk : version ∉ r.disk) :
    predictRoute r version = Except.error 500 ∧
    loadModelRoute r version = Except.error 404 := by
  constructor
  · simp [predictRoute, InferenceService.predictVersioned, ModelRegistry.load,
          hcache, hdisk]
  · simp [loadModelRoute, ModelRegistry.load, hcache, hdisk]

theorem C5_missing_artifact_amended_witness :
    predictRoute (ModelRegistry.init ["v1"] "v1") "v3" = Except.error 500 ∧
    loadModelRoute (ModelRegistry.init ["v1"] "v1") "v3" = Except.error 404 :=
  C5_missing_artifact_amended (ModelRegistry.init ["v1"] "v1") "v3"
    (by decide) (by decide)

/-! ### C6 — the open-state recovery comparison

The claim fails exactly at the boundary: `__enter__` transitions to
half-open only when `time.time() - last_failure_time > recovery_timeout`
holds strictly. Elapsed time equal to `recovery_timeout` still raises
`CircuitBreakerOpen`. -/

/-- Claim C6 counterexample: an open breaker with `recovery_timeout = 5` and
`last_failure_time = 0`, entered at wall time 5 (elapsed time exactly equal
to the timeout), raises `CircuitBreakerOpen` instead of proceeding as the
claim requires for elapsed ≥ timeout. -/
theorem C6_recovery_boundary_counterexample :
    ¬ ((5 : ℚ) - (CircuitBreaker.mk 1 5 CircuitState.OPEN 1 0).last_failure_time ≥
          (CircuitBreaker.mk 1 5 CircuitState.OPEN 1 0).recovery_timeout →
        (CircuitBreaker.mk 1 5 CircuitState.OPEN 1 0).enter 5 ≠
          Except.error PyError.CircuitBreakerOpen) := by
  intro h
  exact h (by norm_num) (by norm_num [CircuitBreaker.enter])

/-- Claim C6 (amended): entering the guarded region while the breaker is
open raises `CircuitBreakerOpen` whenever the elapsed wall time since the
last recorded failure is less than or EQUAL to `recovery_timeout`; only a
strictly greater elapsed time transitions the breaker to half-open and lets
the call proceed. -/
theorem C6_recovery_boundary_amended (b : CircuitBreaker) (now : ℚ)
    (hb : b.state = CircuitState.OPEN) :
    (now - b.last_failure_time ≤ b.recovery_timeout →
        b.enter now = Except.error PyError.CircuitBreakerOpen) ∧
    (b.recovery_timeout < now - b.last_failure_time →
        b.enter now = Except.ok { b with state := CircuitState.HALF_OPEN }) := by
  constructor
  · intro hle
    simp [CircuitBreaker.enter, hb, not_lt.mpr hle]
  · intro hlt
    simp [CircuitBreaker.enter, hb, hlt]

theorem C6_recovery_boundary_amended_witness :
    (CircuitBreaker.mk 1 5 CircuitState.OPEN 1 0).enter 3 =
        Except.error PyError.CircuitBreakerOpen ∧
    (CircuitBreaker.mk 1 5 CircuitState.OPEN 1 0).enter 10 =
        Except.ok (CircuitBreaker.mk 1 5 CircuitState.HALF_OPEN 1 0) :=
  ⟨(C6_recovery_boundary_amended (CircuitBreaker.mk 1 5 CircuitState.OPEN 1 0) 3
      rfl).1 (by norm_num),
   (C6_recovery_boundary_amended (CircuitBreaker.mk 1 5 CircuitState.OPEN 1 0) 10
      rfl).2 (by norm_num)⟩

/-! ### C4 — half-open admits more than one probe

The claim fails: `__enter__` checks only for the OPEN state. While the
breaker is half-open and no outcome has been recorded yet, every further
entry attempt proceeds unchanged; nothing restricts the half-open window to
a single probe. The next recorded outcome still determines the next state. -/

/-- Claim C4 counterexample: an open breaker entered after the timeout
transitions to half-open and admits the probe; a second entry attempted in
that half-open state, before any outcome is recorded, also proceeds (it is
admitted with the state unchanged), contradicting the claim that it does
not proceed. -/
theorem C4_single_probe_counterexample :
    (CircuitBreaker.mk 1 5 CircuitState.OPEN 1 0).enter 6 =
        Except.ok (CircuitBreaker.mk 1 5 CircuitState.HALF_OPEN 1 0) ∧
    (CircuitBreaker.mk 1 5 CircuitState.HALF_OPEN 1 0).enter 6 =
        Except.ok (CircuitBreaker.mk 1 5 CircuitState.HALF_OPEN 1 0) := by
  constructor
  · norm_num [CircuitBreaker.enter]
  · norm_num [CircuitBreaker.enter]

/-- Claim C4 (amended): after an open→half-open transition the first
recorded outcome determines the next state — success closes the breaker and
zeroes the counter, an expected error re-opens it and re-records the failure
time — but entry is not limited to one probe: every entry attempted while
the state is half-open proceeds, with the breaker unchanged. -/
theorem C4_single_probe_amended (b : CircuitBreaker) (now t : ℚ)
    (hb : b.state = CircuitState.HALF_OPEN) :
    b.enter now = Except.ok b ∧
    (b.handle_success).state = CircuitState.CLOSED ∧
    (b.handle_success).failure_count = 0 ∧
    (b.handle_failure t).state = CircuitState.OPEN ∧
    (b.handle_failure t).last_failure_time = t := by
  refine ⟨?_, ?_, ?_, ?_, ?_⟩ <;>
    simp [CircuitBreaker.enter, CircuitBreaker.handle_success,
          CircuitBreaker.handle_failure, hb]

theorem C4_single_probe_amended_witness :
    (CircuitBreaker.mk 1 5 CircuitState.HALF_OPEN 1 0).enter 8 =
        Except.ok (CircuitBreaker.mk 1 5 CircuitState.HALF_OPEN 1 0) ∧
    ((CircuitBreaker.mk 1 5 CircuitState.HALF_OPEN 1 0).handle_success).state =
        CircuitState.CLOSED ∧
    ((CircuitBreaker.mk 1 5 CircuitState.HALF_OPEN 1 0).handle_failure 9).state =
        CircuitState.OPEN :=
  ⟨(C4_single_probe_amended (CircuitBreaker.mk 1 5 CircuitState.HALF_OPEN 1 0)
      8 9 rfl).1,
   (C4_single_probe_amended (CircuitBreaker.mk 1 5 CircuitState.HALF_OPEN 1 0)
      8 9 rfl).2.1,
   (C4_single_probe_amended (CircuitBreaker.mk 1 5 CircuitState.HALF_OPEN 1 0)
      8 9 rfl).2.2.2.1⟩

/-! ### C7 — the breaker opens after `failure_threshold` consecutive expected
errors, and success in closed state resets the counter -/

theorem runCalls_closed_all_fail (ts : List (ℚ × ℚ)) :
    ∀ b : CircuitBreaker, b.state = CircuitState.CLOSED →
      b.failure_count + ts.length = b.failure_threshold → ts ≠ [] →
      ∃ b2 : CircuitBreaker,
        b.runCalls (ts.map fun p => (p.1, p.2, true)) = Except.ok b2 ∧
        b2.state = CircuitState.OPEN ∧
        b2.recovery_timeout = b.recovery_timeout := by
  induction ts with
  | nil => intro b _ _ hne; exact absurd rfl hne
  | cons t rest ih =>
      intro b hb hcount _
      simp only [List.length_cons] at hcount
      have henter : b.enter t.1 = Except.ok b := by
        simp [CircuitBreaker.enter, hb]
      simp only [List.map_cons, CircuitBreaker.runCalls, henter, if_true]
      cases rest with
      | nil =>
          have hth : b.failure_threshold ≤ b.failure_count + 1 := by
            simp at hcount; omega
          refine ⟨({ b with
                     state := CircuitState.OPEN
                     failure_count := b.failure_count + 1
                     last_failure_time := t.2 } : CircuitBreaker), ?_, rfl, rfl⟩
          simp [CircuitBreaker.handle_failure, hb, hth, CircuitBreaker.runCalls]
      | cons t2 rest2 =>
          simp only [List.length_cons] at hcount
          have hth : ¬ b.failure_threshold ≤ b.failure_count + 1 := by omega
          have hfail : b.handle_failure t.2 =
              { b with
                failure_count := b.failure_count + 1
                last_failure_time := t.2 } := by
            simp [CircuitBreaker.handle_failure, hb, hth]
          rw [hfail]
          exact ih _ (by simp [hb]) (by simp [List.length_cons]; omega) (by simp)

/-- Claim C7: starting from the initial closed breaker, any `N`
(`failure_threshold`) consecutive guarded calls that each end with an
expected error, with no intervening success, leave the breaker open, and any
subsequent entry whose elapsed time since the recorded failure is within the
recovery timeout raises `CircuitBreakerOpen`; moreover a success recorded in
the closed state resets the consecutive-failure counter to zero. -/
theorem C7_breaker_trips_after_threshold (N : Nat) (T : ℚ) (ts : List (ℚ × ℚ))
    (hN : 1 ≤ N) (hlen : ts.length = N) :
    (∃ b2 : CircuitBreaker,
        (CircuitBreaker.init N T).runCalls (ts.map fun p => (p.1, p.2, true)) =
          Except.ok b2 ∧
        b2.state = CircuitState.OPEN ∧
        ∀ now : ℚ, now - b2.last_failure_time ≤ T →
          b2.enter now = Except.error PyError.CircuitBreakerOpen) ∧
    (∀ c : CircuitBreaker, c.state = CircuitState.CLOSED →
        (c.handle_success).failure_count = 0) := by
  constructor
  · have hne : ts ≠ [] := by
      intro he
      rw [he] at hlen
      simp at hlen
      omega
    obtain ⟨b2, hrun, hstate, hrt⟩ :=
      runCalls_closed_all_fail ts (CircuitBreaker.init N T) rfl
        (by simp [CircuitBreaker.init, hlen]) hne
    refine ⟨b2, hrun, hstate, ?_⟩
    intro now hle
    have hnlt : ¬ b2.recovery_timeout < now - b2.last_failure_time := by
      rw [hrt]
      exact not_lt.mpr hle
    simp [CircuitBreaker.enter, hstate, hnlt]
  · intro c hc
    by_cases h0 : 0 < c.failure_count
    · simp [CircuitBreaker.handle_success, hc, h0]
    · simp [CircuitBreaker.handle_success, hc, h0]
      omega

theorem C7_breaker_trips_after_threshold_witness :
    (∃ b2 : CircuitBreaker,
        (CircuitBreaker.init 3 5).runCalls
            ([((0 : ℚ), (0 : ℚ)), (1, 1), (2, 2)].map fun p => (p.1, p.2, true)) =
          Except.ok b2 ∧
        b2.state = CircuitState.OPEN ∧
        ∀ now : ℚ, now - b2.last_failure_time ≤ 5 →
          b2.enter now = Except.error PyError.CircuitBreakerOpen) ∧
    (∀ c : CircuitBreaker, c.state = CircuitState.CLOSED →
        (c.handle_success).failure_count = 0) :=
  C7_breaker_trips_after_threshold 3 5 [(0, 0), (1, 1), (2, 2)] (by decide) rfl

/-! ### C1 — what `stop()` does to items still queued

The claim fails: `stop()` sets `_shutdown`, cancels the worker task and
awaits it, and does nothing else. No `SchedulerStopped` error exists in the
code, and the futures of items still sitting in `self.queue` are neither
resolved nor rejected — they stay pending. -/

/-- Claim C1 counterexample: a scheduler holding a single queued item with a
pending future; after `stop()` it is not the case that every queued item has
left the pending state — the item is still pending, so its promise was not
rejected (with `SchedulerStopped` or anything else). -/
theorem C1_stop_rejects_counterexample :
    ¬ (∀ it ∈ (BatchScheduler.stop
          (BatchScheduler.mk (φ := Unit) (α := Nat)
            [QueueItem.mk () FutureState.pending 0] false true)).queue,
        it.future ≠ FutureState.pending) := by
  intro h
  exact h (QueueItem.mk () FutureState.pending 0) (by simp [BatchScheduler.stop]) rfl

/-- Claim C1 (amended): `stop()` signals shutdown and cancels the worker,
and leaves the queue — including the future of every item still in it —
exactly as it was: queued items are dropped silently with their promises
still pending, not rejected with `SchedulerStopped` (which does not exist in
the code). -/
theorem C1_stop_leaves_queue_amended {φ α : Type} (s : BatchScheduler φ α) :
    (BatchScheduler.stop s).shutdown = true ∧
    (BatchScheduler.stop s).worker_running = false ∧
    (BatchScheduler.stop s).queue = s.queue ∧
    ((BatchScheduler.stop s).queue.map fun it => it.future) =
      s.queue.map fun it => it.future :=
  ⟨rfl, rfl, rfl, rfl⟩

/-! ### C3 — all-or-nothing completion of a batch -/

theorem setResults_map_future {φ α : Type} :
    ∀ (items : List (QueueItem φ α)) (preds : List α),
      (∀ it ∈ items, it.future = FutureState.pending) →
      preds.length = items.length →
      (setResults items preds).map QueueItem.future =
        preds.map FutureState.resolved := by
  intro items
  induction items with
  | nil =>
      intro preds _ hlen
      cases preds with
      | nil => simp [setResults]
      | cons p ps => simp at hlen
  | cons it its ih =>
      intro preds hpend hlen
      cases preds with
      | nil => simp at hlen
      | cons p ps =>
          have hdone : it.future.done = false := by
            rw [hpend it (by simp)]
            rfl
          have hrest : ∀ x ∈ its, x.future = FutureState.pending :=
            fun x hx => hpend x (by simp [hx])
          have hlen2 : ps.length = its.length := by
            simp at hlen
            exact hlen
          simp only [setResults, hdone, Bool.false_eq_true, if_false, List.map_cons]
          rw [ih ps hrest hlen2]

theorem setResults_map_features {φ α : Type} :
    ∀ (items : List (QueueItem φ α)) (preds : List α),
      (setResults items preds).map QueueItem.features =
        items.map QueueItem.features := by
  intro items
  induction items with
  | nil => intro preds; cases preds <;> simp [setResults]
  | cons it its ih =>
      intro preds
      cases preds with
      | nil => simp [setResults]
      | cons p ps =>
          simp only [setResults, List.map_cons]
          rw [ih ps]
          by_cases h : it.future.done = true
          · simp [h]
          · simp [h]

theorem failAll_map_future {φ α : Type} :
    ∀ (items : List (QueueItem φ α)) (e : PyError),
      (∀ it ∈ items, it.future = FutureState.pending) →
      (failAll items e).map QueueItem.future =
        items.map fun _ => FutureState.rejected e := by
  intro items
  induction items with
  | nil => intro e _; simp [failAll]
  | cons it its ih =>
      intro e hpend
      have hdone : it.future.done = false := by
        rw [hpend it (by simp)]
        rfl
      have hrest : ∀ x ∈ its, x.future = FutureState.pending :=
        fun x hx => hpend x (by simp [hx])
      have htail := ih e hrest
      simp only [failAll, List.map_cons, hdone, Bool.false_eq_true, if_false] at htail ⊢
      rw [htail]

/-- Claim C3: for a batch whose futures are all still pending when
`_process_batch` runs, if `prediction_fn` returns normally with one
prediction per item, every item future is resolved with the prediction at
the same position (features staying in place); if `prediction_fn` raises,
every item future is rejected with that same error and none resolves. -/
theorem C3_batch_all_or_nothing {φ α : Type} (items : List (QueueItem φ α))
    (hpend : ∀ it ∈ items, it.future = FutureState.pending) :
    (∀ preds : List α, preds.length = items.length →
        (processBatch items (Except.ok preds)).map QueueItem.future =
          preds.map FutureState.resolved ∧
        (processBatch items (Except.ok preds)).map QueueItem.features =
          items.map QueueItem.features) ∧
    (∀ e : PyError,
        (processBatch items (Except.error e)).map QueueItem.future =
          items.map fun _ => FutureState.rejected e) := by
  constructor
  · intro preds hlen
    exact ⟨setResults_map_future items preds hpend hlen,
           setResults_map_features items preds⟩
  · intro e
    exact failAll_map_future items e hpend

theorem C3_batch_all_or_nothing_witness :
    ((processBatch (φ := Unit)
        [QueueItem.mk () FutureState.pending 0, QueueItem.mk () FutureState.pending 1]
        (Except.ok [10, 20])).map QueueItem.future =
      [FutureState.resolved 10, FutureState.resolved 20]) ∧
    ((processBatch (φ := Unit)
        [QueueItem.mk () FutureState.pending 0, QueueItem.mk () FutureState.pending 1]
        (Except.error (α := List Nat) PyError.OtherException)).map QueueItem.future =
      [FutureState.rejected PyError.OtherException,
       FutureState.rejected PyError.OtherException]) :=
  ⟨((C3_batch_all_or_nothing
      [QueueItem.mk () FutureState.pending 0, QueueItem.mk () FutureState.pending 1]
      (by decide)).1 [10, 20] rfl).1,
   (C3_batch_all_or_nothing
      [QueueItem.mk () FutureState.pending 0, QueueItem.mk () FutureState.pending 1]
      (by decide)).2 PyError.OtherException⟩

/-! ### C8 — the linear-logistic scoring formula and its concrete instance -/

theorem foldl_add_eq_add_sum (f : String × ℝ → ℝ) :
    ∀ (l : List (String × ℝ)) (a : ℝ),
      l.foldl (fun s wp => s + f wp) a = a + (l.map f).sum := by
  intro l
  induction l with
  | nil => intro a; simp
  | cons x xs ih => intro a; simp [ih, add_assoc]

/-- Claim C8: for every feature row, the prediction probability is the
logistic function of `bias + Σ (row value) · weight` over the weight
entries, with a feature absent from the row contributing 0 (that is the
`Row.get` default); the label is 1 exactly when the probability is at least
one half; the confidence is `|2·probability − 1|`; and on the concrete
artifact `bias = 0, weights = {a: 1}` applied to the row `{a: 0}` the
probability is 1/2, the label 1, the confidence 0. -/
theorem C8_logistic_scoring :
    (∀ (m : ExampleModel) (row : Row),
        (m.predictRow row).probability =
          logistic (m.bias + (m.weights.map fun wp => Row.get row wp.1 * wp.2).sum) ∧
        ((m.predictRow row).label = 1 ↔
          (1 : ℝ) / 2 ≤ (m.predictRow row).probability) ∧
        (m.predictRow row).confidence =
          |2 * (m.predictRow row).probability - 1|) ∧
    ((ExampleModel.mk "v1" 0 [("a", 1)]).predictRow [("a", 0)]).probability = 1 / 2 ∧
    ((ExampleModel.mk "v1" 0 [("a", 1)]).predictRow [("a", 0)]).label = 1 ∧
    ((ExampleModel.mk "v1" 0 [("a", 1)]).predictRow [("a", 0)]).confidence = 0 := by
  have habs : ∀ x : ℝ, |x - 1 / 2| * 2 = |2 * x - 1| := by
    intro x
    rw [show (2 : ℝ) * x - 1 = (x - 1 / 2) * 2 by ring, abs_mul]
    norm_num
  have hlog0 : logistic 0 = 1 / 2 := by
    simp [logistic, Real.exp_zero]
    norm_num
  have hscore : (ExampleModel.mk "v1" 0 [("a", 1)]).score [("a", 0)] = 0 := by
    simp [ExampleModel.score, Row.get]
  refine ⟨?_, ?_, ?_, ?_⟩
  · intro m row
    refine ⟨?_, ?_, ?_⟩
    · simp [ExampleModel.predictRow, ExampleModel.score,
            foldl_add_eq_add_sum (fun wp => Row.get row wp.1 * wp.2) m.weights m.bias]
    · by_cases h : (1 : ℝ) / 2 ≤ logistic (m.score row)
      · simp [ExampleModel.predictRow, h]
      · simp [ExampleModel.predictRow, h]
    · simpa [ExampleModel.predictRow] using habs (logistic (m.score row))
  · simp [ExampleModel.predictRow, hscore, hlog0]
  · simp [ExampleModel.predictRow, hscore, hlog0]
  · simp [ExampleModel.predictRow, hscore, hlog0]
